import Mathlib

/-!
Shallow embedding of the MERGIF touch-region registry (`src/TouchManager.h`).

The C++ code keeps an ordered list of polymorphic shapes (rectangle, circle,
polygon, text label), each optionally tied to a group, and resolves a touch
coordinate to the group of the topmost containing shape.  Machine integers
(`int`, `int16_t`, `int32_t`) are modelled as `Int`; C++ `/` on integers
truncates toward zero, which is `Int.tdiv`.  The external `Adafruit_GFX`
surface is modelled by its only observable effect on core state: the
`getTextBounds` measurement used by `TouchText::draw`.  Pixel output is
modelled as a list of drawing commands.
-/

namespace Mergif

/-- A X/Y coordinate struct of int16 for GFX operations (`struct GFXPoint`). -/
structure GFXPoint where
  x : Int
  y : Int
deriving DecidableEq, Repr

/-- Mutable rendering/caching state of a `TouchText` shape: constructor
attributes plus the cached bounds `bX bY bW bH` and the `boundsCalculated`
flag (the group pointer lives on the shape envelope, not here). -/
structure TextState where
  x : Int
  y : Int
  text : String
  fontIndex : Int
  color : Nat
  size : Nat
  direction : Nat
  bX : Int
  bY : Int
  bW : Int
  bH : Int
  boundsCalculated : Bool
deriving DecidableEq, Repr

/-- The `TouchText` constructor: bounds start uncalculated (the C++ fields
`bX..bH` are uninitialized until the first draw; `contains` never reads them
while `boundsCalculated` is false, so we pick 0). -/
def mkTouchText (x y : Int) (text : String) (fontIndex : Int)
    (color size direction : Nat) : TextState :=
  { x := x, y := y, text := text, fontIndex := fontIndex, color := color,
    size := size, direction := direction,
    bX := 0, bY := 0, bW := 0, bH := 0, boundsCalculated := false }

/-- The external rendering surface (`Adafruit_GFX*`).  Its only effect on the
core's state is text measurement: `getTextBounds` as a function of the
selected font (none = default font fallback), text size, rotation, the
string, and the cursor position, returning `(bX, bY, bW, bH)`. -/
structure Gfx where
  measure : Option Nat → Nat → Nat → String → Int → Int → Int × Int × Int × Int

/-- Drawing primitives emitted to the surface, for observing draw dispatch. -/
inductive GfxCmd where
  | fillRect (x y w h : Int) (color : Nat)
  | drawRect (x y w h : Int) (color : Nat)
  | fillCircle (x y r : Int) (color : Nat)
  | drawCircle (x y r : Int) (color : Nat)
  | drawLine (x0 y0 x1 y1 : Int) (color : Nat)
  | printText (t : TextState) (font : Option Nat)
deriving DecidableEq, Repr

/-- Font lookup in `TouchText::draw`: a valid index selects the table entry,
anything else falls back to the surface default (`setFont(NULL)`). -/
def selectFont (fontTable : List Nat) (fontIndex : Int) : Option Nat :=
  if 0 ≤ fontIndex ∧ fontIndex < (fontTable.length : Int) then
    fontTable.get? fontIndex.toNat
  else
    none

/-- The state effect of `TouchText::draw`: measure and cache the bounding box
exactly once (step 4 of the C++ draw; the surrounding font/cursor/rotation
setup has no effect on core state). -/
def TextState.drawUpdate (t : TextState) (g : Gfx) (fontTable : List Nat) :
    TextState :=
  if t.boundsCalculated then t
  else
    match g.measure (selectFont fontTable t.fontIndex) t.size t.direction
        t.text t.x t.y with
    | (b1, b2, b3, b4) =>
      { t with bX := b1, bY := b2, bW := b3, bH := b4, boundsCalculated := true }

/-- A drawable, touchable shape (`TouchShape` and its four subclasses); the
envelope carries `color`, `filled` and the optional group (`nullptr` = none),
identified here by the group id. -/
inductive TouchShape where
  | rect (x y w h : Int) (color : Nat) (filled : Bool) (group : Option Int)
  | circle (x y d : Int) (color : Nat) (filled : Bool) (group : Option Int)
  | polygon (points : List GFXPoint) (color : Nat) (filled : Bool)
      (group : Option Int)
  | text (t : TextState) (group : Option Int)
deriving Repr

/-- The shape's group reference (`TouchShape::group`), as its id. -/
def TouchShape.group : TouchShape → Option Int
  | .rect _ _ _ _ _ _ g => g
  | .circle _ _ _ _ _ g => g
  | .polygon _ _ _ g => g
  | .text _ g => g

/-- The crossing test of one edge `(points[i], points[j])` in the ray-casting
loop of `TouchPolygon::contains`: `(points[i].y > py) != (points[j].y > py)`. -/
def crossesRay (pi pj : GFXPoint) (py : Int) : Bool :=
  (decide (pi.y > py)) != (decide (pj.y > py))

/-- One iteration of the ray-casting loop of `TouchPolygon::contains`: flip
`isInside` when the edge crosses the scanline and the crossing is to the
right of `px` (C++ integer division truncates toward zero). -/
def rayFlip (px py : Int) (isInside : Bool) (pr : GFXPoint × GFXPoint) : Bool :=
  if crossesRay pr.1 pr.2 py &&
      decide (px < Int.tdiv ((pr.2.x - pr.1.x) * (py - pr.1.y))
        (pr.2.y - pr.1.y) + pr.1.x) then
    !isInside
  else
    isInside

/-- The edge list traversed by the loop `for (i = 0, j = n - 1; i < n; j = i++)`:
pairs `(points[i], points[j])` with `j` the previous vertex cyclically, i.e.
`(p0, p(n-1)), (p1, p0), ..., (p(n-1), p(n-2))`. -/
def edgePairs (ps : List GFXPoint) : List (GFXPoint × GFXPoint) :=
  ps.zip (ps.getLastD ⟨0, 0⟩ :: ps)

/-- `TouchPolygon::contains`: fewer than 3 points never contain; otherwise the
even-odd ray-casting rule over all cyclic edges, starting from `false`. -/
def polygonContains (ps : List GFXPoint) (px py : Int) : Bool :=
  if ps.length < 3 then false
  else (edgePairs ps).foldl (rayFlip px py) false

/-- `contains` dispatch over the four shape variants, translated clause by
clause from `TouchRect::contains`, `TouchCircle::contains`,
`TouchPolygon::contains` and `TouchText::contains`. -/
def TouchShape.contains : TouchShape → Int → Int → Bool
  | .rect x y w h _ _ _, px, py =>
      decide (px ≥ x) && decide (px < x + w) &&
      decide (py ≥ y) && decide (py < y + h)
  | .circle x y d _ _ _, px, py =>
      let dx := px - x
      let dy := py - y
      let r := Int.tdiv d 2
      decide (dx * dx + dy * dy ≤ r * r)
  | .polygon ps _ _ _, px, py => polygonContains ps px py
  | .text t _, px, py =>
      if !t.boundsCalculated then false
      else
        decide (px ≥ t.bX) && decide (px < t.bX + t.bW) &&
        decide (py ≥ t.bY) && decide (py < t.bY + t.bH)

/-- `TouchPolygon::draw`: fewer than 2 points is a no-op; otherwise a line
between each consecutive pair, plus, with at least 3 points, a closing line
from the last point back to the first. -/
def polygonDrawCmds (ps : List GFXPoint) (color : Nat) : List GfxCmd :=
  if ps.length < 2 then []
  else
    (ps.zip ps.tail).map
      (fun pr => GfxCmd.drawLine pr.1.x pr.1.y pr.2.x pr.2.y color) ++
    (if 3 ≤ ps.length then
      [GfxCmd.drawLine (ps.getLastD ⟨0, 0⟩).x (ps.getLastD ⟨0, 0⟩).y
        (ps.headD ⟨0, 0⟩).x (ps.headD ⟨0, 0⟩).y color]
    else [])

/-- The drawing commands each shape's `draw` emits (for text, the commands
after font selection; its state effect is `TextState.drawUpdate`). -/
def TouchShape.drawCmds (fontTable : List Nat) : TouchShape → List GfxCmd
  | .rect x y w h c f _ =>
      [if f then GfxCmd.fillRect x y w h c else GfxCmd.drawRect x y w h c]
  | .circle x y d c f _ =>
      [if f then GfxCmd.fillCircle x y (Int.tdiv d 2) c
       else GfxCmd.drawCircle x y (Int.tdiv d 2) c]
  | .polygon ps c _ _ => polygonDrawCmds ps c
  | .text t _ => [GfxCmd.printText t (selectFont fontTable t.fontIndex)]

/-- The state effect of drawing one shape: only a text label changes (its
bounds get measured and cached on the first draw). -/
def TouchShape.drawUpdate (g : Gfx) (fontTable : List Nat) :
    TouchShape → TouchShape
  | .text t gr => .text (t.drawUpdate g fontTable) gr
  | s => s

/-- The `TouchManager`: the group table, the ordered shape list, the bound
display (`m_gfx`, none until `begin`), and the font table. -/
structure TouchManager where
  allGroups : List Int
  allShapes : List TouchShape
  gfx : Option Gfx
  fontTable : List Nat

/-- A freshly constructed `TouchManager` (`m_gfx(nullptr)`, empty tables). -/
def TouchManager.initial : TouchManager :=
  { allGroups := [], allShapes := [], gfx := none, fontTable := [] }

/-- `TouchManager::begin`: bind the display. -/
def TouchManager.begin (m : TouchManager) (g : Gfx) : TouchManager :=
  { m with gfx := some g }

/-- `TouchManager::getOrCreateGroup`: id 0 short-circuits to no group;
otherwise return the existing entry found by id, or append a new one.
Returns the updated table and the shape's group reference. -/
def getOrCreateGroup (allGroups : List Int) (groupID : Int) :
    List Int × Option Int :=
  if groupID = 0 then (allGroups, none)
  else if allGroups.contains groupID then (allGroups, some groupID)
  else (allGroups ++ [groupID], some groupID)

/-- `TouchManager::addRect`: resolve the group, append the shape (its
immediate draw has no state effect for a rectangle). -/
def TouchManager.addRect (m : TouchManager) (x y w h : Int) (color : Nat)
    (filled : Bool) (groupID : Int) : TouchManager :=
  { m with allGroups := (getOrCreateGroup m.allGroups groupID).1,
           allShapes := m.allShapes ++
             [.rect x y w h color filled (getOrCreateGroup m.allGroups groupID).2] }

/-- `TouchManager::addCircle`. -/
def TouchManager.addCircle (m : TouchManager) (x y d : Int) (color : Nat)
    (filled : Bool) (groupID : Int) : TouchManager :=
  { m with allGroups := (getOrCreateGroup m.allGroups groupID).1,
           allShapes := m.allShapes ++
             [.circle x y d color filled (getOrCreateGroup m.allGroups groupID).2] }

/-- `TouchManager::addPolygon` (constructed with `filled = false`). -/
def TouchManager.addPolygon (m : TouchManager) (points : List GFXPoint)
    (color : Nat) (groupID : Int) : TouchManager :=
  { m with allGroups := (getOrCreateGroup m.allGroups groupID).1,
           allShapes := m.allShapes ++
             [.polygon points color false (getOrCreateGroup m.allGroups groupID).2] }

/-- `TouchManager::addFont`: append to the font table, return the new entry's
index (`fontTable.size() - 1`). -/
def TouchManager.addFont (m : TouchManager) (f : Nat) : TouchManager × Nat :=
  ({ m with fontTable := m.fontTable ++ [f] }, (m.fontTable ++ [f]).length - 1)

/-- `TouchManager::addText`: resolve the group, construct the label with
uncalculated bounds, append it; if a display is bound, the immediate draw
measures and caches the bounds. -/
def TouchManager.addText (m : TouchManager) (x y : Int) (text : String)
    (fontIndex : Int) (color size direction : Nat) (groupID : Int) :
    TouchManager :=
  let t0 := mkTouchText x y text fontIndex color size direction
  let t := match m.gfx with
    | some gfx => t0.drawUpdate gfx m.fontTable
    | none => t0
  { m with allGroups := (getOrCreateGroup m.allGroups groupID).1,
           allShapes := m.allShapes ++
             [.text t (getOrCreateGroup m.allGroups groupID).2] }

/-- The reverse-order scan loop inside `TouchManager::findGroupIDAt`, over an
explicit list (the reversed shape list): the first containing shape wins,
yielding its group id or `-1` for a dead shape; no match yields `-1`. -/
def findGo (px py : Int) : List TouchShape → Int
  | [] => -1
  | s :: rest =>
      if s.contains px py then
        match s.group with
        | some gid => gid
        | none => -1
      else findGo px py rest

/-- `TouchManager::findGroupIDAt`: scan `allShapes` in reverse order. -/
def TouchManager.findGroupIDAt (m : TouchManager) (px py : Int) : Int :=
  findGo px py m.allShapes.reverse

/-- `TouchManager::drawAll (gfx)`: replay every shape's draw in insertion
order; the state effect is each text label's bounds caching. -/
def TouchManager.drawAll (m : TouchManager) (g : Gfx) : TouchManager :=
  { m with allShapes := m.allShapes.map (TouchShape.drawUpdate g m.fontTable) }

/-- `TouchManager::clearAll`: discard all shapes and all groups. -/
def TouchManager.clearAll (m : TouchManager) : TouchManager :=
  { m with allShapes := [], allGroups := [] }

/-- The public operations of the manager, for reasoning over arbitrary call
sequences. -/
inductive Op where
  | begin (g : Gfx)
  | addRect (x y w h : Int) (color : Nat) (filled : Bool) (groupID : Int)
  | addCircle (x y d : Int) (color : Nat) (filled : Bool) (groupID : Int)
  | addPolygon (points : List GFXPoint) (color : Nat) (groupID : Int)
  | addText (x y : Int) (text : String) (fontIndex : Int)
      (color size direction : Nat) (groupID : Int)
  | addFont (f : Nat)
  | drawAll (g : Gfx)
  | clearAll

/-- State transition of one operation. -/
def TouchManager.applyOp (m : TouchManager) : Op → TouchManager
  | .begin g => m.begin g
  | .addRect x y w h c f gid => m.addRect x y w h c f gid
  | .addCircle x y d c f gid => m.addCircle x y d c f gid
  | .addPolygon ps c gid => m.addPolygon ps c gid
  | .addText x y s fi c sz dir gid => m.addText x y s fi c sz dir gid
  | .addFont f => (m.addFont f).1
  | .drawAll g => m.drawAll g
  | .clearAll => m.clearAll

/-- Run a sequence of operations from a state. -/
def TouchManager.run (m : TouchManager) : List Op → TouchManager
  | [] => m
  | op :: ops => (m.applyOp op).run ops

/-- The registry built by the unit-test fixture `setUp` in
`test/test_touch/test_logic.cpp`: green rect group 1, blue circle group 2,
red circle group 99 (colors in RGB565). -/
def testRegistry : TouchManager :=
  ((TouchManager.initial.addRect 10 10 50 50 0x07E0 true 1).addCircle
    100 35 25 0x001F false 2).addCircle 40 40 20 0xF800 true 99

/-- The scan loop returns the first containing shape's group (defaulting to
`-1` for a dead shape), and `-1` when no shape contains the point. -/
theorem findGo_eq_find? (px py : Int) :
    ∀ l : List TouchShape,
      findGo px py l =
        match l.find? (fun s => s.contains px py) with
        | some s => s.group.getD (-1)
        | none => -1
  | [] => rfl
  | s :: rest => by
      cases h : s.contains px py with
      | true =>
          simp only [findGo, List.find?, h]
          cases s.group <;> rfl
      | false =>
          simp only [findGo, List.find?, h, if_neg]
          simp only [Bool.false_eq_true, if_false]
          exact findGo_eq_find? px py rest

/-- `getOrCreateGroup` never introduces a duplicate group id. -/
theorem getOrCreateGroup_fst_nodup (groups : List Int) (groupID : Int)
    (h : groups.Nodup) : (getOrCreateGroup groups groupID).1.Nodup := by
  unfold getOrCreateGroup
  split
  · exact h
  · split
    · exact h
    · next hmem =>
        simp only [List.nodup_append, List.nodup_cons, List.not_mem_nil,
          not_false_iff, List.nodup_nil, and_true, true_and]
        refine ⟨h, ?_⟩
        intro a ha hb
        simp only [List.mem_singleton] at hb
        subst hb
        exact hmem (by simpa using ha)

/-- Every single operation preserves the no-duplicate-groups invariant. -/
theorem applyOp_nodup (m : TouchManager) (op : Op)
    (h : m.allGroups.Nodup) : (m.applyOp op).allGroups.Nodup := by
  cases op <;>
    simp only [TouchManager.applyOp, TouchManager.begin, TouchManager.addRect,
      TouchManager.addCircle, TouchManager.addPolygon, TouchManager.addText,
      TouchManager.addFont, TouchManager.drawAll, TouchManager.clearAll] <;>
    first
      | exact h
      | exact getOrCreateGroup_fst_nodup m.allGroups _ h
      | exact List.nodup_nil

/-- Any run from a state with duplicate-free groups keeps them so. -/
theorem run_nodup : ∀ (ops : List Op) (m : TouchManager),
    m.allGroups.Nodup → (m.run ops).allGroups.Nodup
  | [], _, h => h
  | op :: ops, m, h => run_nodup ops (m.applyOp op) (applyOp_nodup m op h)

/-- C1: `findGroupIDAt` scans the shape list in reverse insertion order and
returns, for the first shape whose containment predicate holds, its group id
if grouped and `-1` if ungrouped (an ungrouped shape on top consumes the
touch); when no shape contains the point — in particular on the freshly
constructed empty registry — it returns `-1`. -/
theorem findGroupIDAt_spec :
    (∀ (m : TouchManager) (px py : Int),
        m.findGroupIDAt px py =
          match m.allShapes.reverse.find? (fun s => s.contains px py) with
          | some s => s.group.getD (-1)
          | none => -1) ∧
    (∀ px py : Int, TouchManager.initial.findGroupIDAt px py = -1) :=
  ⟨fun m px py => findGo_eq_find? px py m.allShapes.reverse,
   fun _ _ => rfl⟩

/-- C4: rectangle containment is the half-open box test
`x ≤ px < x + w` and `y ≤ py < y + h`; for the rectangle (10,10,20,20),
point (29,29) is contained and point (30,30) is not. -/
theorem rect_contains_spec :
    (∀ (x y w h px py : Int) (c : Nat) (f : Bool) (g : Option Int),
        TouchShape.contains (.rect x y w h c f g) px py = true ↔
          (x ≤ px ∧ px < x + w ∧ y ≤ py ∧ py < y + h)) ∧
    TouchShape.contains (.rect 10 10 20 20 0 true none) 29 29 = true ∧
    TouchShape.contains (.rect 10 10 20 20 0 true none) 30 30 = false := by
  refine ⟨fun x y w h px py c f g => ?_, by decide, by decide⟩
  simp only [TouchShape.contains, Bool.and_eq_true, decide_eq_true_eq,
    ge_iff_le]
  tauto

/-- C8: `clearAll` empties both the shape list and the group table; it is
idempotent (a second `clearAll` changes nothing, so clearing an
already-cleared registry is a no-op), and clearing the freshly constructed
empty registry leaves it exactly as it was. -/
theorem clearAll_spec :
    (∀ m : TouchManager,
        m.clearAll.allShapes = [] ∧ m.clearAll.allGroups = []) ∧
    (∀ m : TouchManager, m.clearAll.clearAll = m.clearAll) ∧
    TouchManager.initial.clearAll = TouchManager.initial :=
  ⟨fun _ => ⟨rfl, rfl⟩, fun _ => rfl, rfl⟩

/-- C9: in the ray-casting loop of `TouchPolygon::contains`, whenever the
crossing guard `(points[i].y > py) != (points[j].y > py)` holds, the divisor
`points[j].y - points[i].y` of the subsequent integer division is nonzero, so
the containment test never divides by zero. -/
theorem polygon_ray_divisor_nonzero :
    ∀ (pi pj : GFXPoint) (py : Int),
      crossesRay pi pj py = true → pj.y - pi.y ≠ 0 := by
  intro pi pj py h heq
  have hy : pj.y = pi.y := by omega
  rw [crossesRay, hy] at h
  simp at h

/-- The divisor-nonzero guarantee evaluated on a concrete crossing edge. -/
theorem polygon_ray_divisor_nonzero_witness :
    ((⟨0, 1⟩ : GFXPoint).y - (⟨0, 0⟩ : GFXPoint).y ≠ 0) :=
  polygon_ray_divisor_nonzero ⟨0, 0⟩ ⟨0, 1⟩ 0 (by decide)

/-- C10: `clearAll` leaves the font table untouched — every previously
returned index still refers to the same handle — and a subsequent `addFont`
returns the next index after the pre-clear table's end (which is also what
`addFont` returns without a clear). -/
theorem clearAll_preserves_fontTable :
    ∀ (m : TouchManager) (f : Nat),
      m.clearAll.fontTable = m.fontTable ∧
      (∀ i : Nat, m.clearAll.fontTable.get? i = m.fontTable.get? i) ∧
      (m.clearAll.addFont f).2 = m.fontTable.length ∧
      (m.clearAll.addFont f).1.fontTable = m.fontTable ++ [f] ∧
      (m.addFont f).2 = m.fontTable.length := by
  intro m f
  refine ⟨rfl, fun _ => rfl, ?_, rfl, ?_⟩ <;>
    simp [TouchManager.addFont, TouchManager.clearAll]

/-- C2 counterexample: for the circle centered (100,35) with diameter 25 the
integer radius is `25 / 2 = 12`, so the points (100,10) and (100,60) — at
vertical distance 25 from the center — do NOT satisfy the documented
inequality `(px-x)² + (py-y)² ≤ (d/2)²`, are not contained, and on the
unit-test fixture registry resolve to `-1`, not to the circle's group 2
(the repo's own test `test_touch_group_2_circle` expects 2 there and fails
against this arithmetic). -/
theorem circle_edge_counterexample :
    TouchShape.contains (.circle 100 35 25 0x001F false (some 2)) 100 10
      = false ∧
    TouchShape.contains (.circle 100 35 25 0x001F false (some 2)) 100 60
      = false ∧
    testRegistry.findGroupIDAt 100 10 = -1 ∧
    testRegistry.findGroupIDAt 100 60 = -1 ∧
    ¬ (((100 : Int) - 100) ^ 2 + ((10 : Int) - 35) ^ 2
        ≤ (Int.tdiv 25 2) ^ 2) := by
  refine ⟨by decide, by decide, by decide, by decide, by decide⟩

/-- C2 amended: circle containment holds exactly when
`(px-x)² + (py-y)² ≤ r²` with radius `r = d / 2` computed by truncating
integer division; for the circle (100,35,d=25) the radius is 12, so the true
top/bottom edge points (100,23) and (100,47) satisfy the inequality exactly
and are contained, while (100,10) and (100,60) (distance 25 > 12) are not. -/
theorem circle_contains_spec :
    (∀ (x y d px py : Int) (c : Nat) (f : Bool) (g : Option Int),
        TouchShape.contains (.circle x y d c f g) px py =
          decide ((px - x) ^ 2 + (py - y) ^ 2 ≤ (Int.tdiv d 2) ^ 2)) ∧
    TouchShape.contains (.circle 100 35 25 0x001F false (some 2)) 100 23
      = true ∧
    TouchShape.contains (.circle 100 35 25 0x001F false (some 2)) 100 47
      = true ∧
    TouchShape.contains (.circle 100 35 25 0x001F false (some 2)) 100 10
      = false ∧
    TouchShape.contains (.circle 100 35 25 0x001F false (some 2)) 100 60
      = false := by
  refine ⟨fun x y d px py c f g => ?_, by decide, by decide, by decide,
    by decide⟩
  simp only [TouchShape.contains, pow_two]

/-- C3: a text label that has not been drawn (its bounds not yet calculated)
matches no containment query, so the resolver's reverse scan can never pick
it; concretely, adding a label at (5,7) to the fresh registry (no surface
bound, so no immediate draw) and querying its nominal origin resolves to
`-1`; the `TouchText` constructor always starts with uncalculated bounds,
which only a draw call replaces. -/
theorem text_before_first_draw :
    (∀ (t : TextState) (g : Option Int) (px py : Int),
        t.boundsCalculated = false →
        TouchShape.contains (.text t g) px py = false) ∧
    (∀ (m : TouchManager) (t : TextState) (g : Option Int) (px py : Int),
        t.boundsCalculated = false →
        m.allShapes.reverse.find? (fun s => s.contains px py)
          ≠ some (.text t g)) ∧
    ((TouchManager.initial.addText 5 7 "label" 0 0 1 0 9).findGroupIDAt 5 7
        = -1) ∧
    (∀ (x y : Int) (s : String) (fi : Int) (c sz dir : Nat),
        (mkTouchText x y s fi c sz dir).boundsCalculated = false) := by
  have hc : ∀ (t : TextState) (g : Option Int) (px py : Int),
      t.boundsCalculated = false →
      TouchShape.contains (.text t g) px py = false := by
    intro t g px py h
    simp [TouchShape.contains, h]
  refine ⟨hc, ?_, by decide, fun _ _ _ _ _ _ _ => rfl⟩
  intro m t g px py h hfind
  have hp := List.find?_some hfind
  rw [hc t g px py h] at hp
  exact Bool.false_ne_true hp

/-- The undrawn-text guarantee evaluated at a concrete label and registry. -/
theorem text_before_first_draw_witness :
    TouchShape.contains (.text (mkTouchText 5 7 "label" 0 0 1 0) none) 5 7
      = false ∧
    TouchManager.initial.allShapes.reverse.find? (fun s => s.contains 5 7)
      ≠ some (.text (mkTouchText 5 7 "label" 0 0 1 0) none) :=
  ⟨text_before_first_draw.1 (mkTouchText 5 7 "label" 0 0 1 0) none 5 7 rfl,
   text_before_first_draw.2.1 TouchManager.initial
     (mkTouchText 5 7 "label" 0 0 1 0) none 5 7 rfl⟩

/-- C5: a polygon with 0, 1 or 2 points (fewer than 3) contains no point at
all; its draw is a no-op with 0 or 1 points (fewer than 2), and with exactly
2 points it draws the single line segment between them. -/
theorem polygon_min_points :
    (∀ (c : Nat) (f : Bool) (g : Option Int) (px py : Int),
        TouchShape.contains (.polygon [] c f g) px py = false) ∧
    (∀ (p : GFXPoint) (c : Nat) (f : Bool) (g : Option Int) (px py : Int),
        TouchShape.contains (.polygon [p] c f g) px py = false) ∧
    (∀ (p q : GFXPoint) (c : Nat) (f : Bool) (g : Option Int) (px py : Int),
        TouchShape.contains (.polygon [p, q] c f g) px py = false) ∧
    (∀ (ft : List Nat) (c : Nat) (f : Bool) (g : Option Int),
        TouchShape.drawCmds ft (.polygon [] c f g) = []) ∧
    (∀ (ft : List Nat) (p : GFXPoint) (c : Nat) (f : Bool) (g : Option Int),
        TouchShape.drawCmds ft (.polygon [p] c f g) = []) ∧
    (∀ (ft : List Nat) (p q : GFXPoint) (c : Nat) (f : Bool)
        (g : Option Int),
        TouchShape.drawCmds ft (.polygon [p, q] c f g) =
          [GfxCmd.drawLine p.x p.y q.x q.y c]) :=
  ⟨fun _ _ _ _ _ => rfl, fun _ _ _ _ _ _ => rfl, fun _ _ _ _ _ _ _ => rfl,
   fun _ _ _ _ => rfl, fun _ _ _ _ _ => rfl, fun _ _ _ _ _ _ => rfl⟩

/-- C6: after any call sequence from a fresh manager the group table holds at
most one entry per id (no duplicates); concretely, inserting two rectangles
with group id 5 yields the single-entry table `[5]`, and resolving a point
of either rectangle returns that same id 5. -/
theorem group_dedup :
    (∀ ops : List Op, ((TouchManager.initial.run ops).allGroups).Nodup) ∧
    ((TouchManager.initial.addRect 0 0 10 10 0 true 5).addRect
        20 0 10 10 0 true 5).allGroups = [5] ∧
    ((TouchManager.initial.addRect 0 0 10 10 0 true 5).addRect
        20 0 10 10 0 true 5).findGroupIDAt 1 1 = 5 ∧
    ((TouchManager.initial.addRect 0 0 10 10 0 true 5).addRect
        20 0 10 10 0 true 5).findGroupIDAt 21 1 = 5 :=
  ⟨fun ops => run_nodup ops TouchManager.initial List.nodup_nil,
   by decide, by decide, by decide⟩

/-- C7: group id 0 passed to any insert operation stores the shape ungrouped
and leaves the group table exactly as it was — group 0 is never
materialized. -/
theorem group_zero_ungrouped :
    ∀ m : TouchManager,
      (∀ (x y w h : Int) (c : Nat) (f : Bool),
          (m.addRect x y w h c f 0).allGroups = m.allGroups ∧
          (m.addRect x y w h c f 0).allShapes =
            m.allShapes ++ [.rect x y w h c f none]) ∧
      (∀ (x y d : Int) (c : Nat) (f : Bool),
          (m.addCircle x y d c f 0).allGroups = m.allGroups ∧
          (m.addCircle x y d c f 0).allShapes =
            m.allShapes ++ [.circle x y d c f none]) ∧
      (∀ (ps : List GFXPoint) (c : Nat),
          (m.addPolygon ps c 0).allGroups = m.allGroups ∧
          (m.addPolygon ps c 0).allShapes =
            m.allShapes ++ [.polygon ps c false none]) ∧
      (∀ (x y : Int) (s : String) (fi : Int) (c sz dir : Nat),
          (m.addText x y s fi c sz dir 0).allGroups = m.allGroups ∧
          (m.addText x y s fi c sz dir 0).allShapes.dropLast = m.allShapes ∧
          ((m.addText x y s fi c sz dir 0).allShapes.getLast?).map
            TouchShape.group = some none) := by
  intro m
  have hg : getOrCreateGroup m.allGroups 0 = (m.allGroups, none) := by
    simp [getOrCreateGroup]
  refine ⟨fun x y w h c f => ?_, fun x y d c f => ?_, fun ps c => ?_,
    fun x y s fi c sz dir => ?_⟩
  · exact ⟨by simp [TouchManager.addRect, hg], by simp [TouchManager.addRect, hg]⟩
  · exact ⟨by simp [TouchManager.addCircle, hg], by simp [TouchManager.addCircle, hg]⟩
  · exact ⟨by simp [TouchManager.addPolygon, hg], by simp [TouchManager.addPolygon, hg]⟩
  · refine ⟨by simp [TouchManager.addText, hg], ?_, ?_⟩
    · simp [TouchManager.addText, List.dropLast_concat]
    · simp [TouchManager.addText, hg, List.getLast?_concat, TouchShape.group]

end Mergif
